import Mathlib

/-!
Verification development for the hue-control repository.

The Python sources are shallowly embedded:
* `normalize_device_name` embeds `_normalize_device_name`
  (hue_structure_generator.py).
* `generate_hue_structure_json` embeds the pure core of
  `generate_hue_structure_json` (hue_structure_generator.py): the three raw
  resource lists are passed as `Option (List _)` arguments (a `none` models a
  failed fetch, mirroring `_get_hue_resources` returning `None`), and the
  returned value models the `house_structure` dictionary.  File output and the
  env-dependent `house_name` field are side effects outside the document
  structure and are not modelled.
* `get_ordered_items` and `set_lights_on_off` embed the functions of the same
  names in the Streamlit app source.
* `default_ui_order_content` / `seed_ui_order` embed the default-UI-order
  seeding block of `generate_hue_structure_json` (the `os.path.exists` guard
  becomes an explicit `Option` argument holding the currently stored
  document).

Python dictionaries are modelled as association lists with dict semantics:
insertion keeps first-occurrence key order, updates replace in place, and
`.values()` is `map Prod.snd`.  Python's `sorted` on strings is modelled by
insertion sort under code-point lexicographic comparison (`charListLe`), the
comparison Python uses for `str`.
-/

/-- Code-point lexicographic `≤` on character lists, the comparison Python's
`sorted` uses for strings. -/
def charListLe : List Char → List Char → Bool
  | [], _ => true
  | _ :: _, [] => false
  | a :: as, b :: bs =>
    if a.toNat < b.toNat then true
    else if b.toNat < a.toNat then false
    else charListLe as bs

/-- Lexicographic `≤` on strings by code points. -/
def strLe (a b : String) : Bool := charListLe a.data b.data

theorem charListLe_total : ∀ as bs, charListLe as bs = true ∨ charListLe bs as = true := by
  intro as
  induction as with
  | nil => intro bs; left; rfl
  | cons a as ih =>
    intro bs
    cases bs with
    | nil => right; rfl
    | cons b bs =>
      simp only [charListLe]
      rcases Nat.lt_trichotomy a.toNat b.toNat with h | h | h
      · left; simp [h]
      · have h1 : ¬ a.toNat < b.toNat := by omega
        have h2 : ¬ b.toNat < a.toNat := by omega
        simpa [h1, h2] using ih bs
      · right; simp [h]

theorem charListLe_trans : ∀ as bs cs, charListLe as bs = true → charListLe bs cs = true →
    charListLe as cs = true := by
  intro as
  induction as with
  | nil => intro bs cs _ _; rfl
  | cons a as ih =>
    intro bs cs h1 h2
    cases bs with
    | nil => simp [charListLe] at h1
    | cons b bs =>
      cases cs with
      | nil => simp [charListLe] at h2
      | cons c cs =>
        simp only [charListLe] at h1 h2 ⊢
        by_cases hab : a.toNat < b.toNat
        · by_cases hbc : b.toNat < c.toNat
          · simp [show a.toNat < c.toNat by omega]
          · simp only [if_neg hbc] at h2
            by_cases hcb : c.toNat < b.toNat
            · simp [if_pos hcb] at h2
            · simp [show a.toNat < c.toNat by omega]
        · simp only [if_neg hab] at h1
          by_cases hba : b.toNat < a.toNat
          · simp [if_pos hba] at h1
          · simp only [if_neg hba] at h1
            by_cases hbc : b.toNat < c.toNat
            · simp [show a.toNat < c.toNat by omega]
            · simp only [if_neg hbc] at h2
              by_cases hcb : c.toNat < b.toNat
              · simp [if_pos hcb] at h2
              · simp only [if_neg hcb] at h2
                rw [if_neg (show ¬ a.toNat < c.toNat by omega),
                  if_neg (show ¬ c.toNat < a.toNat by omega)]
                exact ih bs cs h1 h2

/-- The ordering on items induced by a string-valued sort key, as used by the
Python `sorted(…, key=…)` calls. -/
def keyLe {α : Type} (f : α → String) (a b : α) : Prop := strLe (f a) (f b) = true

instance {α : Type} (f : α → String) : DecidableRel (keyLe f) :=
  fun a b => instDecidableEqBool (strLe (f a) (f b)) true

instance {α : Type} (f : α → String) : IsTotal α (keyLe f) :=
  ⟨fun a b => charListLe_total (f a).data (f b).data⟩

instance {α : Type} (f : α → String) : IsTrans α (keyLe f) :=
  ⟨fun _ _ _ h1 h2 => charListLe_trans _ _ _ h1 h2⟩

/-- Model of Python's `sorted(l, key=f)` for a string-valued key. -/
def sortOn {α : Type} (f : α → String) (l : List α) : List α :=
  l.insertionSort (keyLe f)

theorem sortOn_perm {α : Type} (f : α → String) (l : List α) : (sortOn f l).Perm l :=
  List.perm_insertionSort _ l

theorem sortOn_sorted {α : Type} (f : α → String) (l : List α) :
    (sortOn f l).Sorted (keyLe f) :=
  List.sorted_insertionSort _ l

theorem mem_sortOn {α : Type} (f : α → String) (l : List α) (a : α) :
    a ∈ sortOn f l ↔ a ∈ l :=
  (sortOn_perm f l).mem_iff

theorem sortOn_length {α : Type} (f : α → String) (l : List α) :
    (sortOn f l).length = l.length :=
  (sortOn_perm f l).length_eq

/-! ### Association lists with Python-dict semantics -/

/-- `d[k] = v`: replace in place if the key is present, else append. -/
def dictInsert {β : Type} (k : String) (v : β) : List (String × β) → List (String × β)
  | [] => [(k, v)]
  | (k', v') :: d => if k' = k then (k', v) :: d else (k', v') :: dictInsert k v d

/-- `d.get(k)`. -/
def dictLookup {β : Type} (k : String) : List (String × β) → Option β
  | [] => none
  | (k', v) :: d => if k' = k then some v else dictLookup k d

/-- `del d[k]` (first occurrence; dict keys are unique anyway). -/
def dictErase {β : Type} (k : String) : List (String × β) → List (String × β)
  | [] => []
  | (k', v) :: d => if k' = k then d else (k', v) :: dictErase k d

/-- `d.setdefault(k, []).append(v)`: append to the bucket in place if the key
exists, else add a new singleton bucket at the end. -/
def dictAppend {β : Type} (k : String) (v : β) :
    List (String × List β) → List (String × List β)
  | [] => [(k, [v])]
  | (k', l) :: d => if k' = k then (k', l ++ [v]) :: d else (k', l) :: dictAppend k v d

/-- Build a bucketed dict by folding an optional key/value extraction over a
list, as the per-owner and per-normalized-name grouping loops do. -/
def bucketFold {α β : Type} (f : α → Option (String × β)) (l : List α) :
    List (String × List β) :=
  l.foldl (fun d a => match f a with
    | some (k, v) => dictAppend k v d
    | none => d) []

/-! ### `_normalize_device_name` (hue_structure_generator.py) -/

/-- Python `\s` on ASCII: space, tab, newline, carriage return, vertical tab,
form feed. -/
def isPySpace (c : Char) : Bool :=
  c.toNat = 32 || c.toNat = 9 || c.toNat = 10 || c.toNat = 13 ||
  c.toNat = 11 || c.toNat = 12

/-- Python `\d` on ASCII: `'0'`–`'9'`. -/
def isPyDigit (c : Char) : Bool := 48 ≤ c.toNat && c.toNat ≤ 57

/-- `re.sub(r'\s*\d+$', '', ·)`: remove one trailing run of digits and the run
of whitespace immediately before it; no change when the string does not end in
a digit. -/
def stripTrailingNum (cs : List Char) : List Char :=
  let r := cs.reverse
  let ds := r.takeWhile isPyDigit
  if ds.isEmpty then cs
  else ((r.drop ds.length).dropWhile isPySpace).reverse

/-- `re.sub(r'\s+', '', ·)`: drop every whitespace character. -/
def removeAllWs (cs : List Char) : List Char := cs.filter (fun c => !(isPySpace c))

/-- `_normalize_device_name`: the sentinel is returned for a falsy (empty)
input; otherwise strip one trailing whitespace+digits run, then remove all
remaining whitespace. -/
def normalize_device_name (s : String) : String :=
  if s.data.isEmpty then "UnnamedDevice"
  else String.mk (removeAllWs (stripTrailingNum s.data))

/-! ### `get_ordered_items` (Streamlit app) -/

/-- `{item.get(name_key): item for item in actual_items}` — later items with
the same key overwrite earlier ones; key order is first occurrence. -/
def buildKeyMap {α : Type} (key : α → String) (items : List α) : List (String × α) :=
  items.foldl (fun d it => dictInsert (key it) it d) []

/-- The preferred-names loop of `get_ordered_items`: for each name, if it is a
key of `ordered_items_map` (`m`), append the mapped item and delete the name
from `remaining_items_map` (`rem`).  Note the membership test is against `m`,
not `rem`. -/
def emitPreferred {α : Type} :
    List String → List (String × α) → List (String × α) → List α × List (String × α)
  | [], _, rem => ([], rem)
  | n :: ns, m, rem =>
    match dictLookup n m with
    | some it =>
      let p := emitPreferred ns m (dictErase n rem)
      (it :: p.1, p.2)
    | none => emitPreferred ns m rem

/-- `get_ordered_items` (Streamlit app): preferred names first, in order, then
the remaining items sorted by key. -/
def get_ordered_items {α : Type} (actual_items : List α)
    (preferred_order_names : List String) (name_key : α → String) : List α :=
  if preferred_order_names.isEmpty then sortOn name_key actual_items
  else
    let m := buildKeyMap name_key actual_items
    let p := emitPreferred preferred_order_names m m
    p.1 ++ sortOn name_key (p.2.map Prod.snd)

/-! ### Raw bridge resources and the built structure -/

/-- A raw `device` resource: `id` and `metadata.name` (absent name modelled as
`none`; the code's other reads of the device dict do not occur). -/
structure RawDevice where
  id : String
  metaName : Option String
deriving Repr, DecidableEq

/-- A raw `light` resource.  `ownerRid` models `service.get("owner", {}).get("rid")`
and `id` the service id, with `""` standing for a missing (falsy) value exactly
as the code's truthiness guard treats them.  `metaName` models
`service.get("metadata", {}).get("name")` with `""` for missing.  `dimming`
models the `"dimming"` sub-dict: `none` when the key is absent, `some b` when
present with optional `brightness` `b`.  `onOn` models the `"on"` sub-dict with
its optional inner `"on"` boolean. -/
structure RawService where
  id : String
  ownerRid : String
  metaName : String
  dimming : Option (Option Nat)
  hasColor : Bool
  hasColorTemp : Bool
  onOn : Option (Option Bool)
deriving Repr, DecidableEq

/-- A `children` entry of a raw `room` resource. -/
structure RawChild where
  rtype : String
  rid : String
deriving Repr, DecidableEq

/-- A raw `room` resource. -/
structure RawRoom where
  id : String
  metaName : Option String
  children : List RawChild
deriving Repr, DecidableEq

/-- An entry of `device_details_map`. -/
structure DeviceDetail where
  name : String
  normalized_name : String
  id : String
deriving Repr, DecidableEq

/-- A light-service record as stored in `hue_device_to_light_services`. -/
structure ServiceEntry where
  service_id : String
  service_name : String
  original_metadata_name : String
  is_on : Bool
  supports_dimming : Bool
  current_brightness : Option Nat
  supports_color : Bool
  supports_color_temperature : Bool
deriving Repr, DecidableEq

/-- A device record inside a room (member of a group or standalone). -/
structure DeviceEntry where
  device_name : String
  device_id : String
  light_services : List ServiceEntry
deriving Repr, DecidableEq

/-- A `device_groups` entry of a room. -/
structure DeviceGroup where
  group_base_name : String
  hue_devices : List DeviceEntry
deriving Repr, DecidableEq

/-- A room of the built structure. -/
structure RoomData where
  room_name : String
  room_id : String
  device_groups : List DeviceGroup
  standalone_devices : List DeviceEntry
deriving Repr, DecidableEq

/-- The built `house_structure` (the env-derived `house_name` label is
omitted). -/
structure HouseStructure where
  rooms : List RoomData
deriving Repr, DecidableEq

/-- Step 1 of the generator: `device_details_map`, keyed by device id; devices
with a falsy id are skipped. -/
def buildDetailsMap (devs : List RawDevice) : List (String × DeviceDetail) :=
  devs.foldl (fun d dev =>
    if dev.id ≠ "" then
      let devName := dev.metaName.getD ("Unnamed Device " ++ dev.id.take 6)
      dictInsert dev.id
        { name := devName, normalized_name := normalize_device_name devName,
          id := dev.id } d
    else d) []

/-- One iteration of step 2: the owner key and service record produced for a
raw light service, or `none` when the owner/service-id truthiness guard
fails. -/
def mkServiceEntry (detailsMap : List (String × DeviceDetail)) (s : RawService) :
    Option (String × ServiceEntry) :=
  if s.ownerRid ≠ "" ∧ s.id ≠ "" then
    let ownerName := ((dictLookup s.ownerRid detailsMap).map (·.name)).getD "Unknown Owner"
    let finalName := if s.metaName = "" ∨ s.metaName = ownerName
      then ownerName ++ " Light" else s.metaName
    let supportsDimming := s.dimming.isSome
    let currentBrightness := if supportsDimming then s.dimming.getD none else none
    let isOn := (s.onOn.getD none).getD false
    some (s.ownerRid,
      { service_id := s.id
        service_name := finalName
        original_metadata_name := s.metaName
        is_on := isOn
        supports_dimming := supportsDimming
        current_brightness := if isOn && supportsDimming then currentBrightness else none
        supports_color := s.hasColor
        supports_color_temperature := s.hasColorTemp })
  else none

/-- Step 2 of the generator: `hue_device_to_light_services`, bucketed by owner
device id. -/
def buildSvcMap (detailsMap : List (String × DeviceDetail)) (ls : List RawService) :
    List (String × List ServiceEntry) :=
  bucketFold (mkServiceEntry detailsMap) ls

/-- `room_hue_device_ids`: the `rid`s of the room's children of rtype
`device`. -/
def roomDeviceIds (r : RawRoom) : List String :=
  (r.children.filter (fun c => c.rtype = "device")).map (·.rid)

/-- One iteration of the per-room grouping loop: resolve a child device id via
`device_details_map` (skipping unknown ids) and build its room record, keyed by
normalized name. -/
def roomBucketStep (detailsMap : List (String × DeviceDetail))
    (svcMap : List (String × List ServiceEntry)) (devId : String) :
    Option (String × DeviceEntry) :=
  (dictLookup devId detailsMap).map (fun det =>
    (det.normalized_name,
      { device_name := det.name, device_id := det.id,
        light_services := (dictLookup devId svcMap).getD [] }))

/-- `devices_by_normalized_name_in_room`. -/
def roomBuckets (detailsMap : List (String × DeviceDetail))
    (svcMap : List (String × List ServiceEntry)) (r : RawRoom) :
    List (String × List DeviceEntry) :=
  bucketFold (roomBucketStep detailsMap svcMap) (roomDeviceIds r)

/-- Build one room: buckets of size `> 1` become device groups (members sorted
by device name, groups sorted by base name); buckets of size `1` contribute
their single device to `standalone_devices` (sorted by device name). -/
def buildRoom (detailsMap : List (String × DeviceDetail))
    (svcMap : List (String × List ServiceEntry)) (r : RawRoom) : RoomData :=
  let buckets := roomBuckets detailsMap svcMap r
  { room_name := r.metaName.getD ("Unnamed Room " ++ r.id.take 6)
    room_id := r.id
    device_groups := sortOn (·.group_base_name)
      ((buckets.filter (fun b => 1 < b.2.length)).map
        (fun b => { group_base_name := b.1, hue_devices := sortOn (·.device_name) b.2 }))
    standalone_devices := sortOn (·.device_name)
      (buckets.filterMap (fun b => match b.2 with
        | [d] => some d
        | _ => none)) }

/-- Steps 1–3 of the generator on successfully fetched resource lists, with
the final by-name room sort. -/
def buildStructure (devs : List RawDevice) (ls : List RawService)
    (rs : List RawRoom) : HouseStructure :=
  let dm := buildDetailsMap devs
  let sm := buildSvcMap dm ls
  { rooms := sortOn (·.room_name) (rs.map (buildRoom dm sm)) }

/-- `generate_hue_structure_json`, with each raw fetch result passed in
(`none` models a fetch that returned `None`).  The `if not all([...])` guard
treats both `None` and an empty list as failure. -/
def generate_hue_structure_json (devices_raw : Option (List RawDevice))
    (light_services_raw : Option (List RawService))
    (rooms_raw : Option (List RawRoom)) : Option HouseStructure :=
  match devices_raw, light_services_raw, rooms_raw with
  | some ds, some ls, some rs =>
    if ds.isEmpty ∨ ls.isEmpty ∨ rs.isEmpty then none
    else some (buildStructure ds ls rs)
  | _, _, _ => none

/-! ### Default UI order seeding -/

/-- The ordering document (`ui_order.json`): `device_order_in_room` is a dict
keyed by room name. -/
structure UiOrder where
  room_order : List String
  device_order_in_room : List (String × List String)
deriving Repr, DecidableEq

/-- The per-room default device order: group base names, then standalone
device names, in the structure's stored order. -/
def roomDeviceNames (r : RoomData) : List String :=
  r.device_groups.map (·.group_base_name) ++ r.standalone_devices.map (·.device_name)

/-- `default_ui_order` as built by the generator from a freshly built
structure. -/
def default_ui_order_content (h : HouseStructure) : UiOrder :=
  { room_order := h.rooms.map (·.room_name)
    device_order_in_room :=
      h.rooms.foldl (fun d r => dictInsert r.room_name (roomDeviceNames r) d) [] }

/-- The UI-order seeding step: the stored document after the
`if not os.path.exists(...)` block, given the document currently in the store
(`none` when the file is absent). -/
def seed_ui_order (existing : Option UiOrder) (h : HouseStructure) : UiOrder :=
  match existing with
  | some o => o
  | none => default_ui_order_content h

/-! ### `set_lights_on_off` (Streamlit app) -/

/-- The sequential PUT loop of `set_lights_on_off`: `outcome i` is whether the
`i`-th `send_light_payload` call succeeds.  Returns the attempted service ids
in order and the number of successes; no failure aborts the loop. -/
def runBatch (outcome : Nat → Bool) : Nat → List String → List String × Nat
  | _, [] => ([], 0)
  | i, sid :: rest =>
    let r := runBatch outcome (i + 1) rest
    (sid :: r.1, (if outcome i then 1 else 0) + r.2)

/-- `set_lights_on_off`: `none` models the early return on an empty id list;
otherwise the attempted ids, the reported success count, and the reported
total. -/
def set_lights_on_off (service_ids : List String) (outcome : Nat → Bool) :
    Option (List String × Nat × Nat) :=
  if service_ids.isEmpty then none
  else
    let r := runBatch outcome 0 service_ids
    some (r.1, r.2, service_ids.length)

/-! ### Example inputs used by several witnesses -/

/-- Example device "Lamp 1". -/
def exD1 : RawDevice := { id := "d1", metaName := some "Lamp 1" }

/-- Example device "Lamp 2". -/
def exD2 : RawDevice := { id := "d2", metaName := some "Lamp 2" }

/-- Example device "Desk". -/
def exD3 : RawDevice := { id := "d3", metaName := some "Desk" }

/-- Example room holding the three example devices. -/
def exRoom : RawRoom where
  id := "r1"
  metaName := some "Bedroom"
  children := [⟨"device", "d1"⟩, ⟨"device", "d2"⟩, ⟨"device", "d3"⟩]

/-- Example room holding only "Lamp 1". -/
def exRoomSingle : RawRoom where
  id := "r2"
  metaName := some "Den"
  children := [⟨"device", "d1"⟩]

/-- Example light service: on, dimmable at brightness 80, owned by `d1`. -/
def exSvc : RawService where
  id := "s1"
  ownerRid := "d1"
  metaName := ""
  dimming := some (some 80)
  hasColor := false
  hasColorTemp := false
  onOn := some (some true)

/-! ### Lemmas about `normalize_device_name` -/

theorem filter_no_space (cs : List Char) :
    ∀ c ∈ removeAllWs cs, isPySpace c = false := by
  intro c hc
  have := List.of_mem_filter hc
  simpa using this

theorem sentinel_no_space : ∀ c ∈ ("UnnamedDevice" : String).data, isPySpace c = false := by
  decide

theorem normalize_no_space (s : String) :
    ∀ c ∈ (normalize_device_name s).data, isPySpace c = false := by
  intro c hc
  unfold normalize_device_name at hc
  by_cases h : s.data.isEmpty
  · rw [if_pos h] at hc
    exact sentinel_no_space c hc
  · rw [if_neg h] at hc
    exact filter_no_space _ c hc

theorem string_ne_empty_data {s : String} (h : s ≠ "") : s.data.isEmpty = false := by
  cases s with
  | mk l =>
    cases l with
    | nil => exact absurd rfl h
    | cons c cs => rfl

/-! ### C2 -/

/-- C2 counterexample: on input `"123"` the trailing-digit stripping leaves
nothing, yet the function returns `""`, not the sentinel `"UnnamedDevice"` —
the sentinel is only produced for an empty input, refuting the claim that the
sentinel is returned whenever nothing remains after stripping. -/
theorem C2_counterexample :
    stripTrailingNum ("123" : String).data = [] ∧
    normalize_device_name "123" = "" ∧
    normalize_device_name "123" ≠ "UnnamedDevice" := by
  refine ⟨rfl, rfl, ?_⟩
  decide

/-- C2 (amended): normalization returns the sentinel exactly on the empty
input; on any non-empty input it strips one trailing run of whitespace
followed by digits and then removes all remaining whitespace (possibly
yielding the empty string); the result never contains whitespace; and the
claim's examples hold: `normalize("Lamp 1") = normalize("Lamp 2") = "Lamp"`,
`normalize("Office Lamp") = "OfficeLamp"`, `normalize("") = "UnnamedDevice"`. -/
theorem C2_normalize_amended :
    normalize_device_name "" = "UnnamedDevice" ∧
    (∀ s : String, s ≠ "" →
      normalize_device_name s = String.mk (removeAllWs (stripTrailingNum s.data))) ∧
    (∀ s : String, ∀ c ∈ (normalize_device_name s).data, isPySpace c = false) ∧
    normalize_device_name "Lamp 1" = "Lamp" ∧
    normalize_device_name "Lamp 2" = "Lamp" ∧
    normalize_device_name "Office Lamp" = "OfficeLamp" := by
  refine ⟨rfl, ?_, normalize_no_space, rfl, rfl, rfl⟩
  intro s hs
  unfold normalize_device_name
  rw [string_ne_empty_data hs]
  simp

/-- Witness for C2: the amended theorem applied at the concrete non-empty
input `"Office Lamp"`. -/
theorem C2_normalize_amended_witness :
    normalize_device_name "Office Lamp" =
      String.mk (removeAllWs (stripTrailingNum ("Office Lamp" : String).data)) :=
  C2_normalize_amended.2.1 "Office Lamp" (by decide)

/-! ### C3 and C10: the `if not all([...])` guard -/

/-- C3: if any of the three raw fetches returned `None`, the generator
produces no document. -/
theorem C3_fetch_failure_no_document (dr : Option (List RawDevice))
    (lr : Option (List RawService)) (rr : Option (List RawRoom))
    (h : dr = none ∨ lr = none ∨ rr = none) :
    generate_hue_structure_json dr lr rr = none := by
  rcases dr with _ | ds <;> rcases lr with _ | ls <;> rcases rr with _ | rs <;>
    simp_all [generate_hue_structure_json]

/-- Witness for C3: rooms fetch failed while devices and lights succeeded. -/
theorem C3_witness :
    generate_hue_structure_json (some [exD1]) (some [exSvc]) none = none :=
  C3_fetch_failure_no_document _ _ _ (Or.inr (Or.inr rfl))

/-- C10: a fetch that succeeded but returned an empty list aborts the build
exactly like a failed fetch. -/
theorem C10_empty_fetch_no_document (dr : Option (List RawDevice))
    (lr : Option (List RawService)) (rr : Option (List RawRoom))
    (h : dr = some [] ∨ lr = some [] ∨ rr = some []) :
    generate_hue_structure_json dr lr rr = none := by
  rcases dr with _ | ds <;> rcases lr with _ | ls <;> rcases rr with _ | rs <;>
    simp_all [generate_hue_structure_json]

/-- Witness for C10: an empty room list with non-empty device and light lists
yields no document. -/
theorem C10_witness :
    generate_hue_structure_json (some [exD1]) (some [exSvc]) (some []) = none :=
  C10_empty_fetch_no_document _ _ _ (Or.inr (Or.inr rfl))

/-! ### C7: idempotence -/

/-- C7: the build is a deterministic function of the three raw inputs — equal
inputs yield structurally identical documents. -/
theorem C7_build_idempotent (dr dr' : Option (List RawDevice))
    (lr lr' : Option (List RawService)) (rr rr' : Option (List RawRoom))
    (hd : dr = dr') (hl : lr = lr') (hr : rr = rr') :
    generate_hue_structure_json dr lr rr = generate_hue_structure_json dr' lr' rr' := by
  rw [hd, hl, hr]

/-- Witness for C7 at a concrete input triple. -/
theorem C7_build_idempotent_witness :
    generate_hue_structure_json (some [exD1, exD2, exD3]) (some [exSvc]) (some [exRoom]) =
      generate_hue_structure_json (some [exD1, exD2, exD3]) (some [exSvc]) (some [exRoom]) :=
  C7_build_idempotent _ _ _ _ _ _ rfl rfl rfl

/-! ### C9: the bulk on/off batch -/

theorem runBatch_spec (outcome : Nat → Bool) :
    ∀ (ids : List String) (b : Nat),
      runBatch outcome b ids =
        (ids, (List.range ids.length).countP (fun i => outcome (i + b))) := by
  intro ids
  induction ids with
  | nil => intro b; rfl
  | cons sid rest ih =>
    intro b
    simp only [runBatch, ih (b + 1), List.length_cons, List.range_succ_eq_map,
      List.countP_cons, List.countP_map]
    have hcomp : ((fun i => outcome (i + b)) ∘ Nat.succ) = fun i => outcome (i + (b + 1)) := by
      funext i
      simp only [Function.comp]
      congr 1
      omega
    rw [hcomp, Nat.zero_add]
    cases houtb : outcome b
    · simp
    · simp [Nat.add_comm]

/-- C9: on a non-empty id list the bulk on/off action attempts a PUT for every
id in the given order (no abort on failure), and reports a tally whose success
count is the number of successful PUTs and whose total is the number of ids. -/
theorem C9_batch_tally (service_ids : List String) (outcome : Nat → Bool)
    (h : service_ids ≠ []) :
    set_lights_on_off service_ids outcome =
      some (service_ids,
        (List.range service_ids.length).countP (fun i => outcome i),
        service_ids.length) := by
  unfold set_lights_on_off
  rw [if_neg (by simpa [List.isEmpty_iff] using h)]
  rw [runBatch_spec]
  simp

/-- Witness for C9: three lights, the second PUT fails — all three are
attempted and the tally is 2 of 3. -/
theorem C9_batch_tally_witness :
    set_lights_on_off ["sa", "sb", "sc"] (fun i => decide (i ≠ 1)) =
      some (["sa", "sb", "sc"], 2, 3) := by
  rw [C9_batch_tally ["sa", "sb", "sc"] (fun i => decide (i ≠ 1)) (by decide)]
  decide

/-! ### C8: empty preferred order -/

/-- C8: with an empty preferred-key sequence the resolver returns exactly the
input items sorted ascending by key under code-point string comparison: the
output is the Python-`sorted` of the input and in particular a permutation of
the input that is sorted under `keyLe`. -/
theorem C8_empty_preferred_sorted {α : Type} (items : List α) (name_key : α → String) :
    get_ordered_items items [] name_key = sortOn name_key items ∧
    (get_ordered_items items [] name_key).Perm items ∧
    (get_ordered_items items [] name_key).Sorted (keyLe name_key) := by
  refine ⟨rfl, ?_, ?_⟩
  · exact sortOn_perm name_key items
  · exact sortOn_sorted name_key items

/-! ### Dict lemmas -/

theorem dictInsert_not_mem {β : Type} (k : String) (v : β) :
    ∀ d : List (String × β), k ∉ d.map Prod.fst → dictInsert k v d = d ++ [(k, v)] := by
  intro d
  induction d with
  | nil => intro _; rfl
  | cons hd tl ih =>
    intro h
    obtain ⟨k', v'⟩ := hd
    simp only [List.map_cons, List.mem_cons] at h
    push_neg at h
    simp only [dictInsert]
    rw [if_neg (fun he => h.1 he.symm), ih h.2]
    rfl

theorem dictLookup_mem {β : Type} (k : String) (v : β) :
    ∀ d : List (String × β), dictLookup k d = some v → (k, v) ∈ d := by
  intro d
  induction d with
  | nil => intro h; exact absurd h (by simp [dictLookup])
  | cons hd tl ih =>
    intro h
    obtain ⟨k', v'⟩ := hd
    simp only [dictLookup] at h
    by_cases he : k' = k
    · rw [if_pos he] at h
      subst he
      rw [Option.some_inj] at h
      subst h
      exact List.mem_cons_self _ _
    · rw [if_neg he] at h
      exact List.mem_cons_of_mem _ (ih h)

theorem dictErase_perm {β : Type} (n : String) (it : β) :
    ∀ rem : List (String × β), dictLookup n rem = some it →
      rem.Perm ((n, it) :: dictErase n rem) := by
  intro rem
  induction rem with
  | nil => intro h; exact absurd h (by simp [dictLookup])
  | cons hd tl ih =>
    intro h
    obtain ⟨k', v'⟩ := hd
    simp only [dictLookup, dictErase] at h ⊢
    by_cases he : k' = n
    · rw [if_pos he] at h ⊢
      subst he
      rw [Option.some_inj] at h
      subst h
      exact List.Perm.refl _
    · rw [if_neg he] at h ⊢
      exact (List.Perm.cons _ (ih h)).trans (List.Perm.swap _ _ _)

theorem dictLookup_erase_ne {β : Type} (k n : String) (hk : k ≠ n) :
    ∀ rem : List (String × β), dictLookup k (dictErase n rem) = dictLookup k rem := by
  intro rem
  induction rem with
  | nil => rfl
  | cons hd tl ih =>
    obtain ⟨k', v'⟩ := hd
    simp only [dictErase, dictLookup]
    by_cases he : k' = n
    · rw [if_pos he, if_neg (by rw [he]; exact fun h => hk h.symm)]
    · rw [if_neg he]
      simp only [dictLookup]
      by_cases hek : k' = k
      · rw [if_pos hek, if_pos hek]
      · rw [if_neg hek, if_neg hek, ih]

theorem buildKeyMap_aux {α : Type} (key : α → String) :
    ∀ (its : List α) (d : List (String × α)),
      (its.map key).Nodup → (∀ it ∈ its, key it ∉ d.map Prod.fst) →
      its.foldl (fun d it => dictInsert (key it) it d) d =
        d ++ its.map (fun it => (key it, it)) := by
  intro its
  induction its with
  | nil => intro d _ _; simp
  | cons it its ih =>
    intro d hnd hdis
    simp only [List.map_cons, List.nodup_cons] at hnd
    simp only [List.foldl_cons]
    rw [dictInsert_not_mem _ _ d (hdis it (List.mem_cons_self it its))]
    rw [ih (d ++ [(key it, it)]) hnd.2 ?_]
    · simp
    · intro it' hit'
      simp only [List.map_append, List.mem_append, List.map_cons, List.map_nil,
        List.mem_singleton]
      push_neg
      refine ⟨hdis it' (List.mem_cons_of_mem _ hit'), ?_⟩
      intro he
      exact hnd.1 (he ▸ List.mem_map_of_mem key hit')

theorem buildKeyMap_eq {α : Type} (key : α → String) (items : List α)
    (h : (items.map key).Nodup) :
    buildKeyMap key items = items.map (fun it => (key it, it)) := by
  unfold buildKeyMap
  rw [buildKeyMap_aux key items [] h (by simp)]
  simp

theorem emitPreferred_perm {α : Type} :
    ∀ (ns : List String) (m rem : List (String × α)),
      ns.Nodup → (∀ k ∈ ns, dictLookup k rem = dictLookup k m) →
      ((emitPreferred ns m rem).1 ++ (emitPreferred ns m rem).2.map Prod.snd).Perm
        (rem.map Prod.snd) := by
  intro ns
  induction ns with
  | nil => intro m rem _ _; simp [emitPreferred]
  | cons n ns ih =>
    intro m rem hnd hinv
    simp only [List.nodup_cons] at hnd
    simp only [emitPreferred]
    cases hm : dictLookup n m with
    | none =>
      exact ih m rem hnd.2 (fun k hk => hinv k (List.mem_cons_of_mem _ hk))
    | some it =>
      simp only
      have hrem : dictLookup n rem = some it := by
        rw [hinv n (List.mem_cons_self n ns), hm]
      have hinv' : ∀ k ∈ ns, dictLookup k (dictErase n rem) = dictLookup k m := by
        intro k hk
        rw [dictLookup_erase_ne k n (fun he => hnd.1 (he ▸ hk)) rem]
        exact hinv k (List.mem_cons_of_mem _ hk)
      have hih := ih m (dictErase n rem) hnd.2 hinv'
      have hm2 : (rem.map Prod.snd).Perm (it :: (dictErase n rem).map Prod.snd) := by
        simpa using (dictErase_perm n it rem hrem).map Prod.snd
      have hcons : ((it :: (emitPreferred ns m (dictErase n rem)).1) ++
            (emitPreferred ns m (dictErase n rem)).2.map Prod.snd) =
          it :: ((emitPreferred ns m (dictErase n rem)).1 ++
            (emitPreferred ns m (dictErase n rem)).2.map Prod.snd) := by
        simp
      rw [hcons]
      exact (hih.cons it).trans hm2.symm

theorem get_ordered_items_nonempty {α : Type} (items : List α)
    (preferred : List String) (name_key : α → String)
    (h : preferred.isEmpty = false) :
    get_ordered_items items preferred name_key =
      (emitPreferred preferred (buildKeyMap name_key items)
        (buildKeyMap name_key items)).1 ++
      sortOn name_key ((emitPreferred preferred (buildKeyMap name_key items)
        (buildKeyMap name_key items)).2.map Prod.snd) := by
  unfold get_ordered_items
  rw [if_neg (by simp [h])]

/-! ### C1 -/

/-- C1 counterexample: the claim fails as stated.  With the single input item
`("A", 1)` and the duplicated preferred key list `["A", "A"]` the resolver
emits the item twice (the membership test is against the full lookup map, not
the remaining map), and with two items sharing key `"A"` the key→item lookup
collapses them so one item is lost — in both cases the output is not a
permutation of the input. -/
theorem C1_counterexample :
    ¬ (get_ordered_items [("A", 1)] ["A", "A"] Prod.fst).Perm [("A", 1)] ∧
    ¬ (get_ordered_items [("A", 1), ("A", 2)] ["B"] Prod.fst).Perm
        [("A", 1), ("A", 2)] := by
  constructor
  · intro h
    have := h.length_eq
    simp [get_ordered_items, buildKeyMap, dictInsert, dictLookup, dictErase,
      emitPreferred] at this
  · intro h
    have := h.length_eq
    simp [get_ordered_items, buildKeyMap, dictInsert, dictLookup, dictErase,
      emitPreferred, sortOn, List.insertionSort, sortOn_length] at this

/-- C1 (amended): when the input items have pairwise-distinct keys and the
preferred keys are pairwise distinct, the resolver's output is a permutation
of the input containing every input item exactly once; preferred keys that
match no input item are silently skipped and produce no entry and no error. -/
theorem C1_order_resolver_amended {α : Type} (items : List α)
    (preferred : List String) (name_key : α → String)
    (hitems : (items.map name_key).Nodup) (hpref : preferred.Nodup) :
    (get_ordered_items items preferred name_key).Perm items := by
  by_cases hp : preferred.isEmpty
  · rw [show preferred = [] from List.isEmpty_iff.mp hp]
    exact sortOn_perm name_key items
  · rw [get_ordered_items_nonempty items preferred name_key (by simpa using hp),
      buildKeyMap_eq name_key items hitems]
    set m := items.map (fun it => (name_key it, it)) with hm
    set p := emitPreferred preferred m m with hpp
    have hemit : (p.1 ++ p.2.map Prod.snd).Perm (m.map Prod.snd) :=
      emitPreferred_perm preferred m m hpref (fun _ _ => rfl)
    have hsnd : m.map Prod.snd = items := by
      rw [hm, List.map_map,
        show (Prod.snd ∘ fun it : α => (name_key it, it)) = id from rfl, List.map_id]
    rw [hsnd] at hemit
    exact (List.Perm.append_left p.1 (sortOn_perm name_key _)).trans hemit

/-- Witness for C1: the amended theorem at the spec's own example — items with
keys `A`, `B`, `C` and preferred keys `[C, Z, A]` (`Z` matches nothing). -/
theorem C1_order_resolver_amended_witness :
    (get_ordered_items [("A", 1), ("B", 2), ("C", 3)] ["C", "Z", "A"] Prod.fst).Perm
      [("A", 1), ("B", 2), ("C", 3)] :=
  C1_order_resolver_amended _ _ _ (by decide) (by decide)

/-! ### Bucket lemmas -/

theorem dictAppend_forall {β : Type} (P : β → Prop) (k : String) (v : β) :
    ∀ d : List (String × List β), (∀ kl ∈ d, ∀ x ∈ kl.2, P x) → P v →
      ∀ kl ∈ dictAppend k v d, ∀ x ∈ kl.2, P x := by
  intro d
  induction d with
  | nil =>
    intro _ hv kl hkl x hx
    simp only [dictAppend, List.mem_singleton] at hkl
    subst hkl
    simp only [List.mem_singleton] at hx
    subst hx
    exact hv
  | cons hd tl ih =>
    intro hall hv kl hkl x hx
    obtain ⟨k', l⟩ := hd
    simp only [dictAppend] at hkl
    by_cases he : k' = k
    · rw [if_pos he] at hkl
      rcases List.mem_cons.mp hkl with h1 | h1
      · subst h1
        simp only [List.mem_append, List.mem_singleton] at hx
        rcases hx with hx | hx
        · exact hall (k', l) (List.mem_cons_self _ _) x hx
        · subst hx
          exact hv
      · exact hall kl (List.mem_cons_of_mem _ h1) x hx
    · rw [if_neg he] at hkl
      rcases List.mem_cons.mp hkl with h1 | h1
      · subst h1
        exact hall (k', l) (List.mem_cons_self _ _) x hx
      · exact ih (fun kl2 hkl2 => hall kl2 (List.mem_cons_of_mem _ hkl2)) hv kl h1 x hx

theorem bucketFold_forall {α β : Type} (f : α → Option (String × β)) (P : β → Prop)
    (hf : ∀ a k v, f a = some (k, v) → P v) :
    ∀ (l : List α) (d : List (String × List β)),
      (∀ kl ∈ d, ∀ x ∈ kl.2, P x) →
      ∀ kl ∈ l.foldl (fun d a => match f a with
          | some (k, v) => dictAppend k v d
          | none => d) d,
        ∀ x ∈ kl.2, P x := by
  intro l
  induction l with
  | nil => intro d hd kl hkl x hx; exact hd kl hkl x hx
  | cons a l ih =>
    intro d hd kl hkl x hx
    simp only [List.foldl_cons] at hkl
    cases hfa : f a with
    | none =>
      rw [hfa] at hkl
      exact ih d hd kl hkl x hx
    | some kv =>
      obtain ⟨k, v⟩ := kv
      rw [hfa] at hkl
      exact ih (dictAppend k v d) (dictAppend_forall P k v d hd (hf a k v hfa)) kl hkl x hx

theorem bucketFold_all {α β : Type} (f : α → Option (String × β)) (P : β → Prop)
    (hf : ∀ a k v, f a = some (k, v) → P v) (l : List α) :
    ∀ kl ∈ bucketFold f l, ∀ x ∈ kl.2, P x :=
  bucketFold_forall f P hf l [] (by simp)

/-! ### Structure membership lemmas -/

theorem generate_some_inv (dr : Option (List RawDevice)) (lr : Option (List RawService))
    (rr : Option (List RawRoom)) (doc : HouseStructure)
    (h : generate_hue_structure_json dr lr rr = some doc) :
    ∃ ds ls rs, dr = some ds ∧ lr = some ls ∧ rr = some rs ∧
      doc = buildStructure ds ls rs := by
  cases dr with
  | none => simp [generate_hue_structure_json] at h
  | some ds =>
    cases lr with
    | none => simp [generate_hue_structure_json] at h
    | some ls =>
      cases rr with
      | none => simp [generate_hue_structure_json] at h
      | some rs =>
        refine ⟨ds, ls, rs, rfl, rfl, rfl, ?_⟩
        simp only [generate_hue_structure_json] at h
        by_cases hg : ds.isEmpty ∨ ls.isEmpty ∨ rs.isEmpty
        · rw [if_pos hg] at h
          exact absurd h (by simp)
        · rw [if_neg hg] at h
          exact (Option.some_inj.mp h).symm

theorem mem_rooms_buildStructure (ds : List RawDevice) (ls : List RawService)
    (rs : List RawRoom) (room : RoomData)
    (h : room ∈ (buildStructure ds ls rs).rooms) :
    ∃ raw ∈ rs,
      room = buildRoom (buildDetailsMap ds) (buildSvcMap (buildDetailsMap ds) ls) raw := by
  simp only [buildStructure] at h
  rw [mem_sortOn] at h
  rcases List.mem_map.mp h with ⟨raw, hraw, heq⟩
  exact ⟨raw, hraw, heq.symm⟩

theorem buildRoom_group_mem (dm : List (String × DeviceDetail))
    (sm : List (String × List ServiceEntry)) (r : RawRoom) (g : DeviceGroup)
    (h : g ∈ (buildRoom dm sm r).device_groups) :
    ∃ b ∈ roomBuckets dm sm r, 1 < b.2.length ∧
      g = { group_base_name := b.1, hue_devices := sortOn DeviceEntry.device_name b.2 } := by
  simp only [buildRoom] at h
  rw [mem_sortOn] at h
  rcases List.mem_map.mp h with ⟨b, hb, hg⟩
  rcases List.mem_filter.mp hb with ⟨hbmem, hcond⟩
  exact ⟨b, hbmem, by simpa using of_decide_eq_true hcond, hg.symm⟩

theorem buildRoom_standalone_mem (dm : List (String × DeviceDetail))
    (sm : List (String × List ServiceEntry)) (r : RawRoom) (d : DeviceEntry)
    (h : d ∈ (buildRoom dm sm r).standalone_devices) :
    ∃ k, (k, [d]) ∈ roomBuckets dm sm r := by
  simp only [buildRoom] at h
  rw [mem_sortOn] at h
  rcases List.mem_filterMap.mp h with ⟨b, hb, hsel⟩
  obtain ⟨k, l⟩ := b
  cases l with
  | nil => simp at hsel
  | cons x xs =>
    cases xs with
    | nil =>
      simp only [Option.some_inj] at hsel
      subst hsel
      exact ⟨k, hb⟩
    | cons y ys => simp at hsel

/-! ### C4 -/

/-- The expected structure for the three-device example room. -/
def exStructThree : HouseStructure :=
  ⟨[⟨"Bedroom", "r1", [⟨"Lamp", [⟨"Lamp 1", "d1", []⟩, ⟨"Lamp 2", "d2", []⟩]⟩],
    [⟨"Desk", "d3", []⟩]⟩]⟩

/-- The expected structure for the single-device example room. -/
def exStructSingle : HouseStructure :=
  ⟨[⟨"Den", "r2", [], [⟨"Lamp 1", "d1", []⟩]⟩]⟩

/-- The details map of the three example devices. -/
def exDm : List (String × DeviceDetail) := buildDetailsMap [exD1, exD2, exD3]

/-- An empty owner→services map for the example. -/
def exSm : List (String × List ServiceEntry) := buildSvcMap exDm []

/-- The device group the example room produces. -/
def exGroupLamp : DeviceGroup := ⟨"Lamp", [⟨"Lamp 1", "d1", []⟩, ⟨"Lamp 2", "d2", []⟩]⟩

/-- C4: in every built room, every device group arises from a
normalized-name bucket of size at least 2 with its member devices sorted by
display name, and every standalone device arises from a bucket of size
exactly 1 (so a singleton bucket never produces a group wrapper, as every
group has at least 2 members); moreover on the claim's examples, the room
with devices "Lamp 1", "Lamp 2", "Desk" yields exactly one group "Lamp" with
two members plus the standalone "Desk", and the room with the single
"Lamp 1" yields a standalone device and no group. -/
theorem C4_group_bucketing (dm : List (String × DeviceDetail))
    (sm : List (String × List ServiceEntry)) (r : RawRoom) :
    (∀ g ∈ (buildRoom dm sm r).device_groups,
      2 ≤ g.hue_devices.length ∧
      g.hue_devices.Sorted (keyLe DeviceEntry.device_name) ∧
      ∃ b ∈ roomBuckets dm sm r, b.1 = g.group_base_name ∧ g.hue_devices.Perm b.2) ∧
    (∀ d ∈ (buildRoom dm sm r).standalone_devices,
      ∃ k, (k, [d]) ∈ roomBuckets dm sm r) ∧
    buildStructure [exD1, exD2, exD3] [] [exRoom] = exStructThree ∧
    buildStructure [exD1] [] [exRoomSingle] = exStructSingle := by
  refine ⟨?_, ?_, by decide, by decide⟩
  · intro g hg
    rcases buildRoom_group_mem dm sm r g hg with ⟨b, hb, hlen, hgeq⟩
    subst hgeq
    refine ⟨?_, ?_, b, hb, rfl, ?_⟩
    · simp only [sortOn_length]
      omega
    · exact sortOn_sorted _ _
    · exact sortOn_perm _ _
  · intro d hd
    exact buildRoom_standalone_mem dm sm r d hd

/-- Witness for C4: the group produced by the example room has at least two
members. -/
theorem C4_group_bucketing_witness : 2 ≤ exGroupLamp.hue_devices.length :=
  ((C4_group_bucketing exDm exSm exRoom).1 exGroupLamp (by decide)).1

/-! ### C5 -/

/-- All device entries of a room, group members first (as the presentation
layer flattens them). -/
def roomDevices (r : RoomData) : List DeviceEntry :=
  (r.device_groups.map DeviceGroup.hue_devices).flatten ++ r.standalone_devices

/-- All light-service records reachable in a room. -/
def roomServiceEntries (r : RoomData) : List ServiceEntry :=
  ((roomDevices r).map DeviceEntry.light_services).flatten

theorem mkServiceEntry_brightness (dm : List (String × DeviceDetail)) (s : RawService)
    (k : String) (e : ServiceEntry) (h : mkServiceEntry dm s = some (k, e)) :
    e.current_brightness ≠ none → e.is_on = true ∧ e.supports_dimming = true := by
  intro hne
  simp only [mkServiceEntry] at h
  by_cases hg : s.ownerRid ≠ "" ∧ s.id ≠ ""
  · rw [if_pos hg] at h
    simp only [Option.some_inj, Prod.mk.injEq] at h
    obtain ⟨-, he⟩ := h
    subst he
    by_cases hc : ((s.onOn.getD none).getD false && s.dimming.isSome) = true
    · rcases Bool.and_eq_true_iff.mp hc with ⟨h1, h2⟩
      exact ⟨h1, h2⟩
    · exfalso
      apply hne
      simp only [Bool.not_eq_true] at hc
      simp [hc]
  · rw [if_neg hg] at h
    exact absurd h (by simp)

theorem buildSvcMap_brightness (dm : List (String × DeviceDetail)) (ls : List RawService) :
    ∀ kl ∈ buildSvcMap dm ls, ∀ e ∈ kl.2,
      e.current_brightness ≠ none → e.is_on = true ∧ e.supports_dimming = true :=
  bucketFold_all (mkServiceEntry dm) _
    (fun s k e h => mkServiceEntry_brightness dm s k e h) ls

theorem roomBuckets_brightness (dm : List (String × DeviceDetail))
    (sm : List (String × List ServiceEntry)) (r : RawRoom)
    (hsm : ∀ kl ∈ sm, ∀ e ∈ kl.2,
      e.current_brightness ≠ none → e.is_on = true ∧ e.supports_dimming = true) :
    ∀ kl ∈ roomBuckets dm sm r, ∀ dEnt ∈ kl.2, ∀ e ∈ dEnt.light_services,
      e.current_brightness ≠ none → e.is_on = true ∧ e.supports_dimming = true := by
  refine bucketFold_all (roomBucketStep dm sm)
    (fun dEnt => ∀ e ∈ dEnt.light_services,
      e.current_brightness ≠ none → e.is_on = true ∧ e.supports_dimming = true)
    ?_ (roomDeviceIds r)
  intro devId k v hv e he
  simp only [roomBucketStep, Option.map_eq_some'] at hv
  rcases hv with ⟨det, -, hdet⟩
  injection hdet with h1 h2
  subst h2
  have he2 : e ∈ (dictLookup devId sm).getD [] := he
  cases hl : dictLookup devId sm with
  | none => rw [hl] at he2; simp at he2
  | some l =>
    rw [hl] at he2
    simp only [Option.getD_some] at he2
    exact hsm (devId, l) (dictLookup_mem devId l sm hl) e he2

/-- C5: in any document the generator produces, every light-service record's
`current_brightness` is non-null only when the service is on and supports
dimming; in every other case it is null. -/
theorem C5_brightness_only_when_on_dimmable (dr : Option (List RawDevice))
    (lr : Option (List RawService)) (rr : Option (List RawRoom)) (doc : HouseStructure)
    (h : generate_hue_structure_json dr lr rr = some doc) :
    ∀ room ∈ doc.rooms, ∀ e ∈ roomServiceEntries room,
      e.current_brightness ≠ none → e.is_on = true ∧ e.supports_dimming = true := by
  rcases generate_some_inv dr lr rr doc h with ⟨ds, ls, rs, -, -, -, hdoc⟩
  subst hdoc
  intro room hroom e he
  rcases mem_rooms_buildStructure ds ls rs room hroom with ⟨raw, -, hroomeq⟩
  subst hroomeq
  have hsm := buildSvcMap_brightness (buildDetailsMap ds) ls
  have hbuck := roomBuckets_brightness (buildDetailsMap ds)
    (buildSvcMap (buildDetailsMap ds) ls) raw hsm
  unfold roomServiceEntries roomDevices at he
  rcases List.mem_flatten.mp he with ⟨svcList, hsvcList, heIn⟩
  rcases List.mem_map.mp hsvcList with ⟨dEnt, hdEnt, hde⟩
  subst hde
  rcases List.mem_append.mp hdEnt with hgrp | hstand
  · rcases List.mem_flatten.mp hgrp with ⟨devList, hdevList, hdIn⟩
    rcases List.mem_map.mp hdevList with ⟨g, hgmem, hgl⟩
    subst hgl
    rcases buildRoom_group_mem _ _ raw g hgmem with ⟨b, hb, -, hgeq⟩
    subst hgeq
    have hdb : dEnt ∈ b.2 := (mem_sortOn _ _ _).mp hdIn
    exact hbuck b hb dEnt hdb e heIn
  · rcases buildRoom_standalone_mem _ _ raw dEnt hstand with ⟨k, hk⟩
    exact hbuck (k, [dEnt]) hk dEnt (List.mem_singleton.mpr rfl) e heIn

/-- The service record the example light service produces. -/
def exEntryS1 : ServiceEntry := ⟨"s1", "Lamp 1 Light", "", true, true, some 80, false, false⟩

/-- The room the full example produces. -/
def exRoomDataFull : RoomData :=
  ⟨"Bedroom", "r1",
    [⟨"Lamp", [⟨"Lamp 1", "d1", [exEntryS1]⟩, ⟨"Lamp 2", "d2", []⟩]⟩],
    [⟨"Desk", "d3", []⟩]⟩

/-- The document the full example produces. -/
def exDocFull : HouseStructure := ⟨[exRoomDataFull]⟩

/-- Witness for C5: the example service is stored with `current_brightness`
80, and the theorem yields that it is on and dimmable. -/
theorem C5_brightness_witness : exEntryS1.is_on = true ∧ exEntryS1.supports_dimming = true :=
  C5_brightness_only_when_on_dimmable (some [exD1, exD2, exD3]) (some [exSvc])
    (some [exRoom]) exDocFull (by decide) exRoomDataFull (by decide) exEntryS1
    (by decide) (by decide)

/-! ### C6 -/

theorem dictInsertFold_eq {α β : Type} (key : α → String) (val : α → β) :
    ∀ (its : List α) (d : List (String × β)),
      (its.map key).Nodup → (∀ it ∈ its, key it ∉ d.map Prod.fst) →
      its.foldl (fun d it => dictInsert (key it) (val it) d) d =
        d ++ its.map (fun it => (key it, val it)) := by
  intro its
  induction its with
  | nil => intro d _ _; simp
  | cons it its ih =>
    intro d hnd hdis
    simp only [List.map_cons, List.nodup_cons] at hnd
    simp only [List.foldl_cons]
    rw [dictInsert_not_mem _ _ d (hdis it (List.mem_cons_self it its))]
    rw [ih (d ++ [(key it, val it)]) hnd.2 ?_]
    · simp
    · intro it' hit'
      simp only [List.map_append, List.mem_append, List.map_cons, List.map_nil,
        List.mem_singleton]
      push_neg
      refine ⟨hdis it' (List.mem_cons_of_mem _ hit'), ?_⟩
      intro he
      exact hnd.1 (he ▸ List.mem_map_of_mem key hit')

theorem dictLookup_map_pair {α β : Type} (key : α → String) (val : α → β) :
    ∀ l : List α, (l.map key).Nodup → ∀ a ∈ l,
      dictLookup (key a) (l.map (fun x => (key x, val x))) = some (val a) := by
  intro l
  induction l with
  | nil => intro _ a ha; exact absurd ha (List.not_mem_nil a)
  | cons b tl ih =>
    intro hnd a ha
    simp only [List.map_cons, List.nodup_cons] at hnd
    simp only [List.map_cons, dictLookup]
    by_cases he : key b = key a
    · rw [if_pos he]
      rcases List.mem_cons.mp ha with hab | hatl
      · rw [hab]
      · exact absurd (he ▸ List.mem_map_of_mem key hatl) hnd.1
    · rw [if_neg he]
      rcases List.mem_cons.mp ha with hab | hatl
      · exact absurd (congrArg key hab.symm) he
      · exact ih hnd.2 a hatl

theorem sorted_map_key {α : Type} (f : α → String) (l : List α)
    (h : l.Sorted (keyLe f)) : (l.map f).Sorted (keyLe id) :=
  h.map f (fun _ _ hab => hab)

/-- C6: an existing ordering document is never overwritten (the seeding step
returns it unchanged); the default document is synthesized only when none
exists, and then its `room_order` is exactly the room display names in the
structure's (sorted) order, its per-room entries list the group base names
followed by the standalone device names — each segment in the structure's
sorted order — and (for distinct room names) looking up any room of the
structure yields exactly that room's list. -/
theorem C6_default_order_seeding :
    (∀ (o : UiOrder) (h : HouseStructure), seed_ui_order (some o) h = o) ∧
    (∀ (dr : Option (List RawDevice)) (lr : Option (List RawService))
        (rr : Option (List RawRoom)) (doc : HouseStructure),
      generate_hue_structure_json dr lr rr = some doc →
      (seed_ui_order none doc).room_order = doc.rooms.map RoomData.room_name ∧
      (seed_ui_order none doc).room_order.Sorted (keyLe id) ∧
      (∀ r ∈ doc.rooms,
        (r.device_groups.map DeviceGroup.group_base_name).Sorted (keyLe id) ∧
        (r.standalone_devices.map DeviceEntry.device_name).Sorted (keyLe id)) ∧
      ((doc.rooms.map RoomData.room_name).Nodup →
        ∀ r ∈ doc.rooms,
          dictLookup r.room_name (seed_ui_order none doc).device_order_in_room =
            some (roomDeviceNames r))) := by
  constructor
  · intro o h
    rfl
  · intro dr lr rr doc h
    rcases generate_some_inv dr lr rr doc h with ⟨ds, ls, rs, -, -, -, hdoc⟩
    subst hdoc
    refine ⟨rfl, ?_, ?_, ?_⟩
    · exact sorted_map_key RoomData.room_name _ (sortOn_sorted _ _)
    · intro r hr
      rcases mem_rooms_buildStructure ds ls rs r hr with ⟨raw, -, hreq⟩
      subst hreq
      constructor
      · exact sorted_map_key DeviceGroup.group_base_name _ (sortOn_sorted _ _)
      · exact sorted_map_key DeviceEntry.device_name _ (sortOn_sorted _ _)
    · intro hnodup r hr
      have heq := dictInsertFold_eq RoomData.room_name roomDeviceNames
        (buildStructure ds ls rs).rooms [] hnodup (by simp)
      show dictLookup r.room_name
        ((buildStructure ds ls rs).rooms.foldl
          (fun d rm => dictInsert rm.room_name (roomDeviceNames rm) d) []) =
        some (roomDeviceNames r)
      rw [heq, List.nil_append]
      exact dictLookup_map_pair RoomData.room_name roomDeviceNames _ hnodup r hr

/-- Witness for C6: on the generated example document, looking up the example
room in the seeded default ordering yields its group name followed by its
standalone name. -/
theorem C6_default_order_seeding_witness :
    dictLookup "Bedroom" (seed_ui_order none exDocFull).device_order_in_room =
      some ["Lamp", "Desk"] := by
  have := (C6_default_order_seeding.2 (some [exD1, exD2, exD3]) (some [exSvc])
    (some [exRoom]) exDocFull (by decide)).2.2.2 (by decide) exRoomDataFull (by decide)
  simpa using this
